import Mathlib

set_option maxHeartbeats 1000000

/-!
Verification development for the Blendle Connect login-automation desktop app.

The definitions below are shallow embeddings of the TypeScript sources:
`src/main/utils/environment.ts` (EnvironmentManager), `src/renderer/renderer.ts`
(connectTool), `src/main/services/callback-server.ts`,
`src/main/services/oauth-window.ts` (handleRedirect),
`src/main/services/auth-manager.ts` (performGeminiLogin, performCodexLogin,
performStandardLogin, checkForAuthUrl, checkForAuthSuccess, extractCredentials,
logout*), and `src/main/services/claude-service.ts` (extractCredentials, logout).

Event-driven code is embedded as explicit state machines whose events model the
Node.js event-loop callbacks (timer and interval ticks, child-process events,
stream `data` events, scheduled continuations).  Each callback body runs
atomically with respect to the others, exactly as in the single-threaded
event-loop model, so one Lean step function per machine applied to a list of
events is a faithful embedding.  JavaScript regular expressions used by the
code are embedded as character-list scanners with the same matching semantics.
-/

/-! ### String utilities (JavaScript string/regex semantics) -/

/-- Case-sensitive check that the first char list is an initial segment of the second. -/
def startsWithChars : List Char → List Char → Bool
  | [], _ => true
  | _ :: _, [] => false
  | p :: ps, c :: cs => p == c && startsWithChars ps cs

/-- Case-insensitive (ASCII lowering) variant of `startsWithChars`. -/
def startsWithCharsCI : List Char → List Char → Bool
  | [], _ => true
  | _ :: _, [] => false
  | p :: ps, c :: cs => p.toLower == c.toLower && startsWithCharsCI ps cs

/-- Case-sensitive substring test on char lists. -/
def hasSubChars (pat : List Char) : List Char → Bool
  | [] => pat.isEmpty
  | c :: cs => startsWithChars pat (c :: cs) || hasSubChars pat cs

/-- JavaScript `s.includes(pat)`. -/
def strIncludes (s pat : String) : Bool := hasSubChars pat.data s.data

/-- JavaScript `s.toLowerCase()` (ASCII, via `Char.toLower` on the char list). -/
def strLower (s : String) : String := String.mk (s.data.map Char.toLower)

/-- JavaScript `s.trim()`: strip leading and trailing whitespace. -/
def strTrim (s : String) : String :=
  String.mk (((s.data.dropWhile Char.isWhitespace).reverse.dropWhile
    Char.isWhitespace).reverse)

/-- JavaScript `s.toLowerCase().includes(pat)` for an already-lowercase pattern,
or equivalently a case-insensitive `includes`. -/
def strIncludesCI (s pat : String) : Bool := strIncludes (strLower s) (strLower pat)

/-- Greedy run of URL-body characters: the `X+` part of `https?:\/\/X+`,
where `excl` says which characters are excluded by the character class. -/
def urlBodyTake (excl : Char → Bool) : List Char → List Char
  | [] => []
  | c :: cs => if excl c then [] else c :: urlBodyTake excl cs

/-- Match the regex fragment `https?:\/\/` at the head of the list (case-sensitive),
returning the matched scheme characters and the remainder. -/
def schemeSplit (cs : List Char) : Option (List Char × List Char) :=
  if startsWithChars "https://".data cs then some (cs.take 8, cs.drop 8)
  else if startsWithChars "http://".data cs then some (cs.take 7, cs.drop 7)
  else none

/-- Case-insensitive variant of `schemeSplit` (for regexes carrying the `i` flag);
the returned scheme keeps the original casing, as a JS match does. -/
def schemeSplitCI (cs : List Char) : Option (List Char × List Char) :=
  if startsWithCharsCI "https://".data cs then some (cs.take 8, cs.drop 8)
  else if startsWithCharsCI "http://".data cs then some (cs.take 7, cs.drop 7)
  else none

/-- All matches of `https?:\/\/X+` left to right, non-overlapping, as returned by
JavaScript `String.prototype.match` with the `g` flag.  `excl` is the set of
characters excluded from the body class.  Fuel-based recursion; the initial fuel
is the length of the scanned list, which suffices since each step consumes at
least one character. -/
def urlMatchesAux (excl : Char → Bool) : Nat → List Char → List (List Char)
  | 0, _ => []
  | _ + 1, [] => []
  | fuel + 1, c :: cs =>
    match schemeSplit (c :: cs) with
    | some (scheme, rest) =>
      let body := urlBodyTake excl rest
      if body.isEmpty then urlMatchesAux excl fuel cs
      else (scheme ++ body) :: urlMatchesAux excl fuel (rest.drop body.length)
    | none => urlMatchesAux excl fuel cs

/-- JavaScript `s.match(/(https?:\/\/X+)/g)` as a list of matched strings. -/
def urlMatches (excl : Char → Bool) (s : String) : List String :=
  (urlMatchesAux excl s.data.length s.data).map String.mk

/-- JavaScript `s.match(/(https?:\/\/X+)/)` (no `g` flag): the first match. -/
def urlFirst (excl : Char → Bool) (s : String) : Option String :=
  (urlMatches excl s).head?

/-- First `https?:\/\/[^\s]+` match (case-insensitive scheme) scanning forward but
stopping at a newline, because `.`/`.*?` in the enclosing JS regex cannot cross
a line break.  Used for the `Visit.*?(url)`-style patterns. -/
def urlAfterAuxCI : Nat → List Char → Option (List Char)
  | 0, _ => none
  | _ + 1, [] => none
  | fuel + 1, c :: cs =>
    if c == '\n' then none
    else
      match schemeSplitCI (c :: cs) with
      | some (scheme, rest) =>
        let body := urlBodyTake (fun ch => ch.isWhitespace) rest
        if body.isEmpty then urlAfterAuxCI fuel cs else some (scheme ++ body)
      | none => urlAfterAuxCI fuel cs

/-- Indices (from `i`) at which `pat` occurs in the list. -/
def occIdxsAux (pat : List Char) : List Char → Nat → List Nat
  | [], i => if pat.isEmpty then [i] else []
  | c :: cs, i =>
    (if startsWithChars pat (c :: cs) then [i] else []) ++ occIdxsAux pat cs (i + 1)

/-- JavaScript `s.match(/Word.*?(https?:\/\/[^\s]+)/i)` collapsed to its capture
group: the first (leftmost) case-insensitive occurrence of `word` followed, on
the same line, by a URL; lazy gap, so the first such URL after the word. -/
def phraseUrlMatch (word : String) (s : String) : Option String :=
  let cs := s.data
  let low := cs.map Char.toLower
  let occs := occIdxsAux (word.data.map Char.toLower) low 0
  (occs.findSome? fun i =>
    urlAfterAuxCI cs.length (cs.drop (i + word.length))).map String.mk

/-- JavaScript `s.match(/Open.*browser.*?(https?:\/\/[^\s]+)/i)` collapsed to its
capture group.  The greedy `.*` gap makes the engine pick, for the leftmost
viable `Open`, the last same-line `browser` occurrence after which a URL still
follows; the lazy second gap then yields the first URL after that `browser`. -/
def openBrowserMatch (s : String) : Option String :=
  let cs := s.data
  let low := cs.map Char.toLower
  let openIdxs := occIdxsAux "open".data low 0
  (openIdxs.findSome? fun i =>
    let afterOpen := i + 4
    let lineLen := ((cs.drop afterOpen).takeWhile (fun c => c != '\n')).length
    let browIdxs := (occIdxsAux "browser".data ((low.drop afterOpen).take lineLen) 0).reverse
    browIdxs.findSome? fun j =>
      urlAfterAuxCI cs.length (cs.drop (afterOpen + j + 7))).map String.mk

/-- JavaScript `url.replace(/[)\]'"]*$/, '')`: strip trailing `)`, `]`, `'`, `"`. -/
def stripTrailingJunk (s : String) : String :=
  String.mk ((s.data.reverse.dropWhile
    (fun c => c == ')' || c == ']' || c == '\'' || c == '"')).reverse)

/-- Strip pass 1 of `cleanTerminalOutput`: remove `\x1b\[[0-9;]*[a-zA-Z]`
escape sequences (auth-manager.ts line 816). -/
def stripAnsiAux : Nat → List Char → List Char
  | 0, cs => cs
  | _ + 1, [] => []
  | fuel + 1, c :: cs =>
    if c == '\x1b' then
      match cs with
      | '[' :: rest =>
        let params := rest.takeWhile (fun ch => ch.isDigit || ch == ';')
        match rest.drop params.length with
        | d :: ds => if d.isAlpha then stripAnsiAux fuel ds else c :: stripAnsiAux fuel cs
        | [] => c :: stripAnsiAux fuel cs
      | _ => c :: stripAnsiAux fuel cs
    else c :: stripAnsiAux fuel cs

/-- Strip pass 2 of `cleanTerminalOutput`: remove `\[[\?>][0-9]+[a-z]`
sequences (auth-manager.ts line 817). -/
def stripCtrl1Aux : Nat → List Char → List Char
  | 0, cs => cs
  | _ + 1, [] => []
  | fuel + 1, c :: cs =>
    if c == '[' then
      match cs with
      | q :: rest =>
        if q == '?' || q == '>' then
          let ds := rest.takeWhile Char.isDigit
          if ds.isEmpty then c :: stripCtrl1Aux fuel cs
          else
            match rest.drop ds.length with
            | t :: ts => if t.isLower then stripCtrl1Aux fuel ts else c :: stripCtrl1Aux fuel cs
            | [] => c :: stripCtrl1Aux fuel cs
        else c :: stripCtrl1Aux fuel cs
      | [] => c :: stripCtrl1Aux fuel cs
    else c :: stripCtrl1Aux fuel cs

/-- Strip pass 3 of `cleanTerminalOutput`: remove `\[\d+[A-Z]` sequences
(auth-manager.ts line 818). -/
def stripCtrl2Aux : Nat → List Char → List Char
  | 0, cs => cs
  | _ + 1, [] => []
  | fuel + 1, c :: cs =>
    if c == '[' then
      let ds := cs.takeWhile Char.isDigit
      if ds.isEmpty then c :: stripCtrl2Aux fuel cs
      else
        match cs.drop ds.length with
        | t :: ts => if t.isUpper then stripCtrl2Aux fuel ts else c :: stripCtrl2Aux fuel cs
        | [] => c :: stripCtrl2Aux fuel cs
    else c :: stripCtrl2Aux fuel cs

/-- `AuthManager.cleanTerminalOutput` (auth-manager.ts lines 815-819): the three
successive regex-replace passes that strip terminal control sequences. -/
def cleanTerminalOutput (s : String) : String :=
  let p1 := stripAnsiAux s.data.length s.data
  let p2 := stripCtrl1Aux p1.length p1
  String.mk (stripCtrl2Aux p2.length p2)

/-! ### Environment Preparer (`src/main/utils/environment.ts`) -/

/-- Value of Node's `process.platform` relevant to the code's branches. -/
inductive Platform
  | darwin
  | linux
  | win32
deriving DecidableEq

/-- Process environment snapshot: an association list from variable names to
values, looked up by first occurrence (key occurs at most once in practice). -/
abbrev Env := List (String × String)

/-- Lookup of a variable in an environment snapshot. -/
def envGet : Env → String → Option String
  | [], _ => none
  | p :: e, k => if p.1 = k then some p.2 else envGet e k

/-- JavaScript `delete env[k]`. -/
def envDelete : Env → String → Env
  | [], _ => []
  | p :: e, k => if p.1 = k then envDelete e k else p :: envDelete e k

/-- JavaScript `env[k] = v` (or an object-spread override). -/
def envSet (e : Env) (k v : String) : Env := (k, v) :: envDelete e k

/-- `EnvironmentManager.UNSET_VARS` (environment.ts lines 5-15). -/
def unsetVars : List String :=
  ["OPENAI_API_KEY", "ANTHROPIC_API_KEY", "GEMINI_API_KEY", "GOOGLE_API_KEY",
   "GOOGLE_GENAI_USE_VERTEXAI", "GOOGLE_GENAI_USE_GCA", "NO_BROWSER",
   "DEBIAN_FRONTEND", "CI"]

/-- Path-list separator: `process.platform === 'win32' ? ';' : ':'`. -/
def pathSeparator (p : Platform) : String := if p = Platform.win32 then ";" else ":"

/-- Node `path.join(a, b)` as used here (joins with the platform separator;
`path.join('', b)` normalizes to `b`). -/
def joinPath (p : Platform) (a b : String) : String :=
  if a = "" then b
  else a ++ (if p = Platform.win32 then "\\" else "/") ++ b

/-- The fixed list of well-known binary directories of `getEnhancedPath`
(environment.ts lines 21-32), already `.filter(p => p)`-ed. -/
def additionalPaths (p : Platform) (home : String) (appData : Option String) : List String :=
  (["/usr/local/bin", "/usr/bin", "/opt/homebrew/bin", "/opt/homebrew/sbin",
    joinPath p home ".nvm/versions/node/v22.17.0/bin",
    joinPath p home ".nvm/versions/node/v20.18.0/bin",
    joinPath p home ".volta/bin",
    joinPath p home ".fnm/aliases/default/bin",
    (if p = Platform.win32 then "C:\\Program Files\\nodejs" else ""),
    (if p = Platform.win32 then joinPath p (appData.getD "") "npm" else "")]).filter
    (fun s => s ≠ "")

/-- Order-preserving deduplication keeping first occurrences:
`[...new Set(list)]`. -/
def dedupFirstAux (seen : List String) : List String → List String
  | [] => []
  | x :: xs =>
    if x ∈ seen then dedupFirstAux seen xs else x :: dedupFirstAux (x :: seen) xs

/-- JavaScript `[...new Set(list)]`. -/
def dedupFirst (l : List String) : List String := dedupFirstAux [] l

/-- The deduplicated entry list built by `getEnhancedPath`
(environment.ts line 34): `[...new Set([...additionalPaths, ...existingPath.split(sep)])]`. -/
def enhancedPathList (p : Platform) (home : String) (env : Env) : List String :=
  dedupFirst (additionalPaths p home (envGet env "APPDATA") ++
    ((envGet env "PATH").getD "").splitOn (pathSeparator p))

/-- `EnvironmentManager.getEnhancedPath` (environment.ts lines 17-36). -/
def getEnhancedPath (p : Platform) (home : String) (env : Env) : String :=
  String.intercalate (pathSeparator p) (enhancedPathList p home env)

/-- `EnvironmentManager.sanitizeEnvForOAuth` (environment.ts lines 38-50):
copy the snapshot, delete the denylist, overwrite `PATH`, and drop a
`BROWSER=www-browser` hint. -/
def sanitizeEnvForOAuth (p : Platform) (home : String) (env : Env)
    (enhancedPath : Option String) : Env :=
  let e := unsetVars.foldl envDelete env
  let e := envSet e "PATH" (enhancedPath.getD (getEnhancedPath p home env))
  if envGet e "BROWSER" == some "www-browser" then envDelete e "BROWSER" else e

/-- `EnvironmentManager.getSpawnEnv` (environment.ts lines 52-59). -/
def getSpawnEnv (p : Platform) (home : String) (env : Env) : Env :=
  let e := sanitizeEnvForOAuth p home env (some (getEnhancedPath p home env))
  envSet (envSet e "TERM" "xterm-256color") "FORCE_COLOR" "1"

/-! ### Tool identities and renderer connection state (`src/renderer/renderer.ts`) -/

/-- The three supported tool IDs (`src/main/types/index.ts`). -/
inductive ToolId
  | codex
  | gemini
  | claude
deriving DecidableEq

/-- Per-tool UI connection state (`ToolState` in the renderer). -/
structure ToolState where
  connected : Bool
  inProgress : Bool
deriving DecidableEq

/-- The renderer's `toolStates` map. -/
abbrev ToolStates := ToolId → ToolState

/-- Update one tool's state in the map. -/
def setToolState (st : ToolStates) (t : ToolId) (v : ToolState) : ToolStates :=
  fun u => if u = t then v else st u

/-- Synchronous prelude of `connectTool` (renderer.ts lines 134-141): the
idempotence guard and the `inProgress` flag set.  Returns the updated state map
and whether the IPC connect request is issued (`window.api.connectTool`); when
the guard trips, the function returns with no state change and no request. -/
def connectTool (st : ToolStates) (t : ToolId) : ToolStates × Bool :=
  if (st t).connected || (st t).inProgress then (st, false)
  else (setToolState st t { connected := (st t).connected, inProgress := true }, true)

/-! ### Callback server (`src/main/services/callback-server.ts`) and the
standard login's `ipcMain.once` listener -/

/-- Request paths: the three routes registered with the shared `handleCallback`
handler, plus any other path (which Express answers with a plain 404 and which
triggers none of the completion effects). -/
inductive CbPath
  | callback
  | authCallback
  | root
  | other
deriving DecidableEq

/-- Whether a path is one of the accepted callback routes. -/
def cbAccepted : CbPath → Bool
  | CbPath.other => false
  | _ => true

/-- State of one callback server plus the one-shot `auth-completed-<tool>`
listener registered with `ipcMain.once` by the standard login attempt. -/
structure CbState where
  serverActive : Bool
  responsesSent : Nat
  emitsAuthCompleted : Nat
  closeScheduled : Nat
  ipcOnceActive : Bool
  ipcDeliveries : Nat
  authCompletedFlag : Bool
deriving DecidableEq

/-- Callback-server events: an incoming GET request, or the firing of one of the
2-second close timers scheduled by `handleCallback`. -/
inductive CbEvent
  | request (p : CbPath)
  | closeFire
deriving DecidableEq

/-- Initial state: server listening, one `ipcMain.once` listener registered. -/
def cbInit : CbState :=
  { serverActive := true, responsesSent := 0, emitsAuthCompleted := 0,
    closeScheduled := 0, ipcOnceActive := false, ipcDeliveries := 0,
    authCompletedFlag := false }

/-- Initial state for a standard-login attempt, which registers the
`auth-completed-<tool>` once-listener (auth-manager.ts line 407). -/
def cbInitWithListener : CbState := { cbInit with ipcOnceActive := true }

/-- `handleCallback` (callback-server.ts lines 22-47) composed with the
`ipcMain.once` delivery semantics: every accepted request sends the response
page, emits the auth-completed signals, and schedules a delayed close; the
emission is delivered to the once-listener only if it is still registered, and
delivery removes it. -/
def cbStep (s : CbState) : CbEvent → CbState
  | CbEvent.request p =>
    if s.serverActive then
      if cbAccepted p then
        let s := { s with responsesSent := s.responsesSent + 1,
                          emitsAuthCompleted := s.emitsAuthCompleted + 1,
                          closeScheduled := s.closeScheduled + 1 }
        if s.ipcOnceActive then
          { s with ipcOnceActive := false, ipcDeliveries := s.ipcDeliveries + 1,
                   authCompletedFlag := true }
        else s
      else { s with responsesSent := s.responsesSent + 1 }
    else s
  | CbEvent.closeFire =>
    if s.closeScheduled > 0 then
      { s with closeScheduled := s.closeScheduled - 1, serverActive := false }
    else s

/-- Run a sequence of callback-server events. -/
def cbRun (init : CbState) (es : List CbEvent) : CbState := es.foldl cbStep init

/-! ### Embedded OAuth browser window (`src/main/services/oauth-window.ts`) -/

/-- Tool-specific success-URL regexes of `handleRedirect`
(oauth-window.ts lines 80-90); all are case-insensitive substring tests. -/
def toolSpecificSuccess : ToolId → List String
  | ToolId.claude => ["console.anthropic.com/oauth/code/success", "download-complete"]
  | ToolId.gemini => ["developers.google.com/gemini-code-assist/auth/auth_success", "approval"]
  | ToolId.codex => []

/-- Generic success-URL patterns (oauth-window.ts lines 92-96). -/
def genericSuccessPatterns : List String := ["code=", "success", "authenticated"]

/-- Whether the URL matches a tool-specific success pattern. -/
def matchesToolSpecific (t : ToolId) (url : String) : Bool :=
  (toolSpecificSuccess t).any (fun pat => strIncludesCI url pat)

/-- Whether the URL matches a generic success pattern. -/
def matchesGenericSuccess (url : String) : Bool :=
  genericSuccessPatterns.any (fun pat => strIncludesCI url pat)

/-- Whether the URL matches any success pattern (tool-specific or generic),
exactly the disjunction tested at oauth-window.ts line 101. -/
def matchesSuccessUrl (t : ToolId) (url : String) : Bool :=
  matchesToolSpecific t url || matchesGenericSuccess url

/-- `url.match(/[?&]code=([^&]+)/)`: the captured authorization code, i.e. the
text after the first `?code=` or `&code=` up to the next `&`, required
nonempty.  Case-sensitive (the regex has no `i` flag). -/
def extractAuthCode (url : String) : Option String :=
  go url.data.length url.data
where
  go : Nat → List Char → Option String
    | 0, _ => none
    | _ + 1, [] => none
    | fuel + 1, c :: cs =>
      if (c == '?' || c == '&') && startsWithChars "code=".data cs then
        let body := (cs.drop 5).takeWhile (fun ch => ch != '&')
        if body.isEmpty then go fuel cs else some (String.mk body)
      else go fuel cs

/-- Effects of one `handleRedirect` call (oauth-window.ts lines 70-122):
the updated `completed` flag, whether the window was closed by the error
branch, the callback URL loaded by the success branch, whether a (2-second
delayed) `resolve` was scheduled, and whether `reject` fired synchronously. -/
structure RedirectResult where
  completed : Bool
  windowClosed : Bool
  loadedCode : Option String
  loadedSuccessPage : Bool
  scheduledResolve : Bool
  immediateReject : Bool
deriving DecidableEq

/-- `OAuthWindow.handleRedirect` for a single navigation event, given the
`completed` flag at entry.  Note that the success branch and the error branch
are two independent `if` statements, not an `if`/`else`. -/
def handleRedirect (t : ToolId) (completed : Bool) (url : String) : RedirectResult :=
  if completed then
    { completed := completed, windowClosed := false, loadedCode := none,
      loadedSuccessPage := false, scheduledResolve := false, immediateReject := false }
  else
    let success := matchesSuccessUrl t url
    let r0 : RedirectResult :=
      if success then
        match extractAuthCode url with
        | some code =>
          { completed := true, windowClosed := false, loadedCode := some code,
            loadedSuccessPage := false, scheduledResolve := true, immediateReject := false }
        | none =>
          { completed := true, windowClosed := false, loadedCode := none,
            loadedSuccessPage := true, scheduledResolve := true, immediateReject := false }
      else
        { completed := false, windowClosed := false, loadedCode := none,
          loadedSuccessPage := false, scheduledResolve := false, immediateReject := false }
    if strIncludes (strLower url) "error" || strIncludes (strLower url) "denied" then
      { r0 with windowClosed := true, immediateReject := true }
    else r0

/-- Settlement of the attempt promise after one fresh navigation event:
`reject` in the error branch fires synchronously, while the success branch's
`resolve` runs in a 2-second `setTimeout`, so a synchronous reject wins the
race (a promise settles only once).  `some true` = resolved, `some false` =
rejected, `none` = still pending. -/
def redirectSettles (r : RedirectResult) : Option Bool :=
  if r.immediateReject then some false
  else if r.scheduledResolve then some true
  else none

/-! ### Output-scraper pattern lists (`auth-manager.ts`) -/

/-- The four entries of `urlPatterns` in `checkForAuthUrl`
(auth-manager.ts lines 535-540), in source order. -/
inductive UrlPat
  | generic
  | openBrowser
  | visit
  | navigateTo
deriving DecidableEq

/-- `urlPatterns` (auth-manager.ts lines 535-540): the generic global
`https?:\/\/[^\s\)\]]+` pattern is listed first, the explicit
`Open...browser`, `Visit`, `Navigate to` phrasings after it. -/
def urlPatterns : List UrlPat := [UrlPat.generic, UrlPat.openBrowser, UrlPat.visit, UrlPat.navigateTo]

/-- Character class `[^\s\)\]]` of the generic pattern. -/
def exclGeneric (c : Char) : Bool := c.isWhitespace || c == ')' || c == ']'

/-- Character class `[^\s\)]` of the Gemini handler's URL regex. -/
def exclGemini (c : Char) : Bool := c.isWhitespace || c == ')'

/-- JavaScript `output.match(pattern)` collapsed to the element the code reads,
`matches[matches.length - 1]`: for the global generic pattern that is the last
match; for the phrasal patterns the array is `[full, group1]` so it is the
captured URL. -/
def patMatchLast : UrlPat → String → Option String
  | UrlPat.generic, s => (urlMatches exclGeneric s).getLast?
  | UrlPat.openBrowser, s => openBrowserMatch s
  | UrlPat.visit, s => phraseUrlMatch "visit" s
  | UrlPat.navigateTo, s => phraseUrlMatch "navigate to" s

/-- `AuthManager.checkForAuthUrl` (auth-manager.ts lines 534-556) reduced to its
decision: the first pattern in `urlPatterns` that matches wins, and the stripped
URL it yields is the one handed to the 5-second external-open fallback timer. -/
def checkForAuthUrl (output : String) : Option (UrlPat × String) :=
  urlPatterns.findSome? fun p =>
    (patMatchLast p output).map (fun u => (p, stripTrailingJunk u))

/-- `successPatterns` of `checkForAuthSuccess` (auth-manager.ts lines 559-572). -/
def successPatterns : List String :=
  ["successfully signed in", "authentication successful", "authentication success",
   "logged in as", "authentication complete", "login successful",
   "authenticated successfully", "login completed", "loaded cached credentials",
   "already authenticated", "credentials loaded", "auth_success"]

/-- `AuthManager.checkForAuthSuccess` (auth-manager.ts lines 558-578) reduced to
its decision: case-insensitive substring match of any success phrase. -/
def checkForAuthSuccess (output : String) : Bool :=
  successPatterns.any (fun pat => strIncludes (strLower output) pat)

/-- The `meaningfulPatterns` test of `setupGeminiHandlers`
(auth-manager.ts lines 489-500). -/
def geminiMeaningful (output : String) : Bool :=
  strIncludesCI output "Code Assist login required" ||
  strIncludesCI output "open authentication page" ||
  strIncludesCI output "Waiting for authentication" ||
  strIncludesCI output "Loaded cached credentials" ||
  strIncludesCI output "already authenticated" ||
  strIncludesCI output "authenticated" ||
  strIncludesCI output "logged in" ||
  (urlFirst (fun c => c.isWhitespace) (strLower output)).isSome

/-! ### Credential extraction (`extractCredentials` in auth-manager.ts and
claude-service.ts) -/

/-- Flat view of a parsed JSON object: just the key/value pairs the code reads. -/
abbrev JsonObj := List (String × String)

/-- Abstraction of `JSON.parse`: `none` models a parse exception (always caught
by the surrounding `try`).  The extraction control flow is what is verified
here; the parser itself is a platform primitive, like the filesystem. -/
abbrev JsonOracle := String → Option JsonObj

/-- Field lookup in a parsed object. -/
def jsonLookup (o : JsonObj) (k : String) : Option String :=
  (o.find? (fun p => p.1 == k)).map (·.2)

/-- Contents of the candidate credential locations probed by the extractors;
`none` models a missing or unreadable file / secure-store entry (every access
is wrapped in `try`/`catch` in the source). -/
structure CredFS where
  keychainClaude : Option String
  claudeJson : Option String
  codexAuthJson : Option String
  codexConfigToml : Option String
  geminiOauthCreds : Option String
deriving DecidableEq

/-- The filesystem with no credential present at any candidate location. -/
def emptyCredFS : CredFS :=
  { keychainClaude := none, claudeJson := none, codexAuthJson := none,
    codexConfigToml := none, geminiOauthCreds := none }

/-- Boolean test that no candidate location holds a credential. -/
def credFSEmpty (fs : CredFS) : Bool :=
  fs.keychainClaude.isNone && fs.claudeJson.isNone && fs.codexAuthJson.isNone &&
  fs.codexConfigToml.isNone && fs.geminiOauthCreds.isNone

/-- Normalized credential descriptor: the fields of the ad hoc objects the
extractors return.  `payloadPresent` stands for the spread of a parsed JSON
payload; `oauthPresent` for the Gemini `oauth` sub-object. -/
structure Credentials where
  status : String
  message : String
  storage : Option String
  path : Option String
  format : Option String
  size : Option Nat
  apiKey : Option String
  copyable : Bool
  hasToken : Bool
  oauthPresent : Bool
  payloadPresent : Bool
deriving DecidableEq

/-- All-empty descriptor used as the base for record updates. -/
def blankCreds : Credentials :=
  { status := "", message := "", storage := none, path := none, format := none,
    size := none, apiKey := none, copyable := false, hasToken := false,
    oauthPresent := false, payloadPresent := false }

/-- The degraded descriptor of `ClaudeService.extractCredentials`
(claude-service.ts lines 628-633). -/
def claudeDegradedCreds : Credentials :=
  { blankCreds with
    status := "authenticated",
    message := "Claude Code authenticated (verification skipped)",
    storage := some "unknown" }

/-- `ClaudeService.extractCredentials` (claude-service.ts lines 554-634).
On macOS the Keychain entry is probed, elsewhere `~/.claude.json`; a hit is
normalized (detecting an `api_key`/`apiKey` field when the content parses as
JSON), and any miss or exception falls through to the degraded descriptor. -/
def claudeServiceExtractCredentials (p : Platform) (jp : JsonOracle) (fs : CredFS) :
    Credentials :=
  if p = Platform.darwin then
    match fs.keychainClaude with
    | some result =>
      if strTrim result ≠ "" then
        let base := { blankCreds with
          status := "authenticated",
          message := "Claude Code authenticated successfully",
          storage := some "macOS Keychain", copyable := false }
        match jp (strTrim result) with
        | some obj =>
          match (jsonLookup obj "api_key").orElse (fun _ => jsonLookup obj "apiKey") with
          | some v => { base with apiKey := some v, copyable := true }
          | none => base
        | none => if (strTrim result).length > 20 then { base with hasToken := true } else base
      else claudeDegradedCreds
    | none => claudeDegradedCreds
  else
    match fs.claudeJson with
    | some authData =>
      let base := { blankCreds with
        status := "authenticated",
        message := "Claude Code authenticated successfully",
        path := some "~/.claude.json", format := some "json",
        size := some authData.length, copyable := false }
      match jp authData with
      | some obj =>
        match (jsonLookup obj "api_key").orElse (fun _ => jsonLookup obj "apiKey") with
        | some v => { base with apiKey := some v, copyable := true }
        | none => base
      | none => base
    | none => claudeDegradedCreds

/-- The TOML `api_key` regex `/api_key\s*=\s*"([^"]+)"/i` of the Codex branch
(auth-manager.ts line 604), as a scanner returning the capture group. -/
def apiKeyFromToml (s : String) : Option String :=
  go s.data.length s.data
where
  go : Nat → List Char → Option String
    | 0, _ => none
    | _ + 1, [] => none
    | fuel + 1, c :: cs =>
      if startsWithCharsCI "api_key".data (c :: cs) then
        let afterEq := ((c :: cs).drop 7).dropWhile (fun ch => ch.isWhitespace)
        match afterEq with
        | '=' :: r =>
          let afterSp := r.dropWhile (fun ch => ch.isWhitespace)
          match afterSp with
          | '"' :: body0 =>
            let body := body0.takeWhile (fun ch => ch != '"')
            if body.isEmpty then go fuel cs
            else
              match body0.drop body.length with
              | '"' :: _ => some (String.mk body)
              | _ => go fuel cs
          | _ => go fuel cs
        | _ => go fuel cs
      else go fuel cs

/-- One iteration of the Codex credential-path loop
(auth-manager.ts lines 596-634): `none` models the `catch { continue }` taken
when the file is absent or (for `auth.json`) its content fails `JSON.parse`. -/
def codexTryPath (jp : JsonOracle) (pathStr : String) (content : Option String)
    (isToml : Bool) : Option Credentials :=
  match content with
  | none => none
  | some authData =>
    if isToml then
      let c0 := { blankCreds with
        path := some pathStr, format := some "toml",
        apiKey := apiKeyFromToml authData }
      some { c0 with
        status := "authenticated",
        message := "ChatGPT (Codex) authenticated successfully" }
    else
      match jp authData with
      | none => none
      | some _ =>
        some { blankCreds with
          payloadPresent := true, path := some pathStr,
          format := some "json", status := "authenticated",
          message := "ChatGPT (Codex) authenticated successfully" }

/-- `AuthManager.extractCredentials` (auth-manager.ts lines 580-677), paired
with the `sendLog` lines the taken branch emits.  `storeCredentials` and
`storeCredentialsToBackend` only notify the UI / a remote endpoint and are
fully wrapped in `try`/`catch`, so they cannot change or fail the returned
descriptor and are not part of the state here. -/
def authManagerExtractCredentials (p : Platform) (jp : JsonOracle) (fs : CredFS) :
    ToolId → Credentials × List String
  | ToolId.claude => (claudeServiceExtractCredentials p jp fs, [])
  | ToolId.codex =>
    match (codexTryPath jp "~/.codex/auth.json" fs.codexAuthJson false).orElse
        (fun _ => codexTryPath jp "~/.codex/config.toml" fs.codexConfigToml true) with
    | some c =>
      (c, ["Credentials extracted from: " ++ ((c.path).getD "")])
    | none =>
      ({ blankCreds with
         status := "authenticated",
         message := "Tool authenticated successfully", storage := some "unknown" }, [])
  | ToolId.gemini =>
    let base := { blankCreds with
      status := "authenticated",
      message := "Gemini CLI authenticated successfully", storage := some "local-oauth" }
    match fs.geminiOauthCreds with
    | some oauthData =>
      match jp oauthData with
      | some _ => ({ base with oauthPresent := true }, ["OAuth credentials verified"])
      | none => (base, ["Authentication completed (credentials cached locally)"])
    | none => (base, ["Authentication completed (credentials cached locally)"])

/-! ### Logout (`logoutTool` and helpers) -/

/-- Filesystem / secure-store facts consulted by the logout paths. -/
structure LogoutFS where
  codexDirExists : Bool
  geminiDirExists : Bool
  claudeKeychainExists : Bool
  claudeJsonExists : Bool
deriving DecidableEq

/-- Result shape of `logoutTool`. -/
structure LogoutResult where
  success : Bool
  message : String
deriving DecidableEq

/-- `AuthManager.logoutCodexWithResult` (auth-manager.ts lines 715-744).
The preliminary `execSync('codex logout')` is wrapped in `try`/`catch` and
ignored.  `rmErr` models an exception from `fs.rm` on the `.codex` directory. -/
def logoutCodexWithResult (fs : LogoutFS) (rmErr : Option String) : LogoutResult :=
  if fs.codexDirExists then
    match rmErr with
    | some m => { success := false, message := "Error removing Codex credentials: " ++ m }
    | none => { success := true, message := "Codex logged out successfully" }
  else { success := true, message := "No Codex credentials to remove" }

/-- `AuthManager.logoutGemini` (auth-manager.ts lines 746-763). -/
def logoutGemini (fs : LogoutFS) (rmErr : Option String) : LogoutResult :=
  if fs.geminiDirExists then
    match rmErr with
    | some m => { success := false, message := "Error removing Gemini credentials: " ++ m }
    | none => { success := true, message := "Gemini logged out successfully" }
  else { success := true, message := "No Gemini credentials to remove" }

/-- `ClaudeService.removeStoredCredentials` (claude-service.ts lines 500-534):
resolves `true` iff a credential was actually deleted (Keychain entry on
macOS, `~/.claude.json` elsewhere); a miss resolves `false`, never rejects. -/
def removeStoredCredentials (p : Platform) (fs : LogoutFS) : Bool :=
  if p = Platform.darwin then fs.claudeKeychainExists else fs.claudeJsonExists

/-- `ClaudeService.logout` (claude-service.ts lines 431-448).  `cliOk` is the
result of `runCliLogout`, which resolves `false` exactly when spawning the
`claude` binary fails (its `error` event), and `true` on process close or the
3-second timeout. -/
def claudeServiceLogout (cliOk credsDeleted : Bool) : LogoutResult :=
  if !cliOk then
    { success := false,
      message := if credsDeleted then "Logout command failed, but credentials were removed"
                 else "Failed to logout from Claude" }
  else
    { success := true,
      message := if credsDeleted then "Claude logged out and credentials removed"
                 else "Claude logged out successfully" }

/-- `AuthManager.logoutTool` (auth-manager.ts lines 679-694): dispatch on the
tool.  `cliOk` abstracts the external `claude` process used by the Claude CLI
logout; `rmErr` abstracts an `fs.rm` failure. -/
def logoutTool (p : Platform) (fs : LogoutFS) (rmErr : Option String) (cliOk : Bool) :
    ToolId → LogoutResult
  | ToolId.claude => claudeServiceLogout cliOk (removeStoredCredentials p fs)
  | ToolId.codex => logoutCodexWithResult fs rmErr
  | ToolId.gemini => logoutGemini fs rmErr

/-! ### Gemini pre-login destructive phase (`performGeminiLogin` lines 107-112,
`clearGeminiCredentials` lines 765-783, `ensureGeminiOAuthSelected`
lines 785-813) -/

/-- Parsed view of `~/.gemini/settings.json`: the fields the code touches plus
the remaining keys, which the read-modify-write cycle preserves. -/
structure GSettings where
  secAuthSelectedType : Option String
  secAuthEnforcedType : Option String
  selectedAuthType : Option String
  extra : List (String × String)
deriving DecidableEq

/-- State of the `~/.gemini` directory before a login. -/
structure GeminiHome where
  oauthCreds : Option String
  googleAccounts : Option String
  settings : Option GSettings
deriving DecidableEq

/-- `AuthManager.clearGeminiCredentials`: unconditionally unlink
`oauth_creds.json` and `google_accounts.json` when present (each guarded only
by an existence check; errors are caught and logged). -/
def clearGeminiCredentials (h : GeminiHome) : GeminiHome :=
  { h with oauthCreds := none, googleAccounts := none }

/-- `AuthManager.ensureGeminiOAuthSelected`: read (or default) the settings,
force `security.auth.selectedType` and the legacy top-level `selectedAuthType`
to `oauth-personal`, drop a conflicting `enforcedType`, and write the file
back. -/
def ensureGeminiOAuthSelected (h : GeminiHome) : GeminiHome :=
  let s0 := h.settings.getD
    { secAuthSelectedType := none, secAuthEnforcedType := none,
      selectedAuthType := none, extra := [] }
  let s1 := { s0 with secAuthSelectedType := some "oauth-personal" }
  let s2 :=
    match s1.secAuthEnforcedType with
    | some t => if t ≠ "oauth-personal" then { s1 with secAuthEnforcedType := none } else s1
    | none => s1
  { h with settings := some { s2 with selectedAuthType := some "oauth-personal" } }

/-- The pre-spawn phase of `performGeminiLogin` (auth-manager.ts lines
107-112): `await clearGeminiCredentials(); await ensureGeminiOAuthSelected();`
runs before the `gemini` login child process is spawned and before any
completion source of the attempt exists. -/
def performGeminiLoginPre (h : GeminiHome) : GeminiHome :=
  ensureGeminiOAuthSelected (clearGeminiCredentials h)

/-! ### Login attempt state machines (`performGeminiLogin`,
`performCodexLogin`, `performStandardLogin` in auth-manager.ts)

Each promise executor is embedded as a state machine.  One event is one
event-loop callback: a stream `data` chunk, an interval or timer firing, a
child-process `close`/`exit`/`error` event, or a scheduled asynchronous
continuation.  Timers and intervals carry an active/armed flag; a cleared
timer's event is a no-op, which models `clearInterval`/`clearTimeout`.
`fired` counts every call of the promise's `resolve` or `reject`. -/

/-- Result the promise executor passed to `resolve`/`reject` first. -/
inductive AttemptOutcome
  | resolvedOk
  | rejected (msg : String)
deriving DecidableEq

/-- Completion source that won a Gemini attempt. -/
inductive GeminiSource
  | phrase
  | oauthWindow
  | credPoll
  | close
  | timeout
deriving DecidableEq

/-- State of one `performGeminiLogin` attempt (auth-manager.ts lines 113-181).
`logsSent` counts `sendLog` calls, `successScreens` counts
`show-success-screen` notifications, `killSent` records `login.kill()`. -/
structure GeminiState where
  resolved : Bool
  authCompleted : Bool
  credPollActive : Bool
  timeoutArmed : Bool
  childAlive : Bool
  killSent : Bool
  oauthWindowsPending : Nat
  fired : Nat
  outcome : Option AttemptOutcome
  resolvedBy : Option GeminiSource
  logsSent : Nat
  successScreens : Nat
deriving DecidableEq

/-- Attempt state right after the spawn: credential poll interval and overall
timeout armed, child running, nothing resolved. -/
def geminiInit : GeminiState :=
  { resolved := false, authCompleted := false, credPollActive := true,
    timeoutArmed := true, childAlive := true, killSent := false,
    oauthWindowsPending := 0, fired := 0, outcome := none, resolvedBy := none,
    logsSent := 0, successScreens := 0 }

/-- The `onAuthComplete` callback handed to `setupGeminiHandlers`
(auth-manager.ts lines 154-167): show the success screen once, then resolve if
not yet resolved.  Note it clears no timer and kills no process. -/
def geminiOnAuthComplete (src : GeminiSource) (s : GeminiState) : GeminiState :=
  let s :=
    if !s.authCompleted then
      { s with authCompleted := true, successScreens := s.successScreens + 1 }
    else s
  if !s.resolved then
    { s with resolved := true, fired := s.fired + 1,
             outcome := some AttemptOutcome.resolvedOk, resolvedBy := some src }
  else s

/-- Event-loop callbacks of a Gemini attempt. -/
inductive GeminiEvent
  | stdout (text : String)
  | stderr (text : String)
  | oauthWindowDone
  | credPollTick (credFileExists : Bool)
  | timeoutFire
  | procClose (code : Int)
deriving DecidableEq

/-- One event-loop callback of a Gemini attempt.  `stdout` is the
`setupGeminiHandlers` data handler (lines 485-525): meaningful-pattern log,
URL detection opening an OAuth window, success-phrase check; `credPollTick` is
the 500 ms interval (lines 123-143); `timeoutFire` the 2-minute timeout
(lines 145-152); `procClose` the child's `close` handler (lines 169-180);
`oauthWindowDone` the OAuth window's `.then(() => onAuthComplete())`. -/
def geminiStep (s : GeminiState) : GeminiEvent → GeminiState
  | GeminiEvent.stdout text =>
    if s.childAlive then
      let s :=
        if geminiMeaningful text then { s with logsSent := s.logsSent + 1 } else s
      let s :=
        if (urlFirst exclGemini text).isSome then
          { s with logsSent := s.logsSent + 1,
                   oauthWindowsPending := s.oauthWindowsPending + 1 }
        else s
      if checkForAuthSuccess text then geminiOnAuthComplete GeminiSource.phrase s else s
    else s
  | GeminiEvent.stderr text =>
    if s.childAlive && strTrim text != "" then { s with logsSent := s.logsSent + 1 } else s
  | GeminiEvent.oauthWindowDone =>
    if s.oauthWindowsPending > 0 then
      geminiOnAuthComplete GeminiSource.oauthWindow
        { s with oauthWindowsPending := s.oauthWindowsPending - 1 }
    else s
  | GeminiEvent.credPollTick credFileExists =>
    if s.credPollActive then
      if credFileExists then
        let s := { s with credPollActive := false, logsSent := s.logsSent + 1 }
        let s :=
          if !s.authCompleted then
            { s with authCompleted := true, successScreens := s.successScreens + 1 }
          else s
        if !s.resolved then
          { s with resolved := true, fired := s.fired + 1,
                   outcome := some AttemptOutcome.resolvedOk,
                   resolvedBy := some GeminiSource.credPoll }
        else s
      else s
    else s
  | GeminiEvent.timeoutFire =>
    if s.timeoutArmed then
      let s := { s with timeoutArmed := false }
      if !s.resolved then
        { s with resolved := true, credPollActive := false, killSent := true,
                 fired := s.fired + 1,
                 outcome := some (AttemptOutcome.rejected "Login process timed out"),
                 resolvedBy := some GeminiSource.timeout }
      else s
    else s
  | GeminiEvent.procClose code =>
    if s.childAlive then
      let s := { s with childAlive := false, timeoutArmed := false, credPollActive := false }
      if !s.resolved then
        { s with resolved := true, fired := s.fired + 1,
                 outcome :=
                   if code = 0 || s.authCompleted then some AttemptOutcome.resolvedOk
                   else some (AttemptOutcome.rejected
                     ("Login process failed with code " ++ toString code)),
                 resolvedBy := some GeminiSource.close }
      else s
    else s

/-- Run a Gemini attempt over a list of event-loop callbacks. -/
def geminiRun (es : List GeminiEvent) : GeminiState := es.foldl geminiStep geminiInit

/-- Capture group of `/Marker(.+)/`-style regexes: the text after an occurrence
of the marker up to the end of its line, nonempty (else the engine retries at
a later occurrence). -/
def markerCapture (marker : String) (text : String) : Option String :=
  (occIdxsAux marker.data text.data 0).findSome? fun i =>
    let rest := (text.data.drop (i + marker.length)).takeWhile (fun c => c != '\n')
    if rest.isEmpty then none else some (String.mk rest)

/-- Pre-spawn facts consulted synchronously by `performCodexLogin`. -/
structure CodexConfig where
  expectInstalled : Bool
  scriptExists : Bool
  isPackaged : Bool
  copyOk : Bool
deriving DecidableEq

/-- Completion source that won a Codex attempt. -/
inductive CodexSource
  | loginSuccessCheck
  | loginFailed
  | procError
  | configCheck
  | closeCheck
  | timeout
deriving DecidableEq

/-- State of one `performCodexLogin` attempt (auth-manager.ts lines 189-377).
`successChecksPending` counts scheduled `LOGIN_SUCCESS` → `checkAuthenticated`
continuations (line 290); `closeCheckPending` the scheduled close-handler
re-check with its exit code (line 351). -/
structure CodexState where
  resolved : Bool
  childAlive : Bool
  configCheckActive : Bool
  timeoutArmed : Bool
  killSent : Bool
  successChecksPending : Nat
  closeCheckPending : Option Int
  authUrl : Option String
  fired : Nat
  outcome : Option AttemptOutcome
  resolvedBy : Option CodexSource
  logsSent : Nat
  successScreens : Nat
deriving DecidableEq

/-- Attempt state right after spawning the expect script. -/
def codexInit : CodexState :=
  { resolved := false, childAlive := true, configCheckActive := true,
    timeoutArmed := true, killSent := false, successChecksPending := 0,
    closeCheckPending := none, authUrl := none, fired := 0, outcome := none,
    resolvedBy := none, logsSent := 0, successScreens := 0 }

/-- Event-loop callbacks of a Codex attempt. -/
inductive CodexEvent
  | stdout (text : String)
  | stderr (text : String)
  | procError (msg : String)
  | successCheckFire (isAuth : Bool)
  | configCheckTick (authFileExists : Bool)
  | procClose (code : Int)
  | closeCheckFire (isAuth : Bool)
  | timeoutFire
deriving DecidableEq

/-- One event-loop callback of a Codex attempt.  `stdout` is the expect
process's data handler (lines 247-311) scanning for the `AUTH_URL:`,
`LOGIN_INFO:`, `LOGIN_SUCCESS`, `LOGIN_FAILED` markers; `successCheckFire` the
2-second-delayed `checkAuthenticated` continuation after `LOGIN_SUCCESS`;
`configCheckTick` the 3-second auth-file poll (lines 330-343); `procClose` the
`close` handler (lines 345-366) which only schedules `closeCheckFire`;
`timeoutFire` the 10-minute timeout (lines 369-376).  The stdout handler's
four marker blocks are the four scan stages below, applied in source order.

The `AUTH_URL:` marker block is lines 258-268. -/
def codexScanAuthUrl (text : String) (s : CodexState) : CodexState :=
  match (if strIncludes text "AUTH_URL:" then markerCapture "AUTH_URL:" text else none) with
  | some u => { s with authUrl := some (strTrim u), logsSent := s.logsSent + 1 }
  | none => s

/-- The `LOGIN_INFO:` marker block of the stdout handler (lines 271-276). -/
def codexScanLoginInfo (text : String) (s : CodexState) : CodexState :=
  match (if strIncludes text "LOGIN_INFO:" then markerCapture "LOGIN_INFO:" text else none) with
  | some _ => { s with logsSent := s.logsSent + 1 }
  | none => s

/-- The `LOGIN_SUCCESS` marker block (lines 279-298): log, success screen, and
scheduling of the 2-second-delayed `checkAuthenticated` re-check. -/
def codexScanLoginSuccess (text : String) (s : CodexState) : CodexState :=
  if strIncludes text "LOGIN_SUCCESS" then
    { s with logsSent := s.logsSent + 1, successScreens := s.successScreens + 1,
             successChecksPending := s.successChecksPending + 1 }
  else s

/-- The `LOGIN_FAILED` marker block (lines 301-310). -/
def codexScanLoginFailed (text : String) (s : CodexState) : CodexState :=
  if strIncludes text "LOGIN_FAILED" then
    let msg := (markerCapture "LOGIN_FAILED:" text).getD "Unknown reason"
    let s := { s with logsSent := s.logsSent + 1 }
    if !s.resolved then
      { s with resolved := true, fired := s.fired + 1,
               outcome := some (AttemptOutcome.rejected ("Login failed: " ++ msg)),
               resolvedBy := some CodexSource.loginFailed }
    else s
  else s

def codexStep (s : CodexState) : CodexEvent → CodexState
  | CodexEvent.stdout text =>
    if s.childAlive then
      codexScanLoginFailed text (codexScanLoginSuccess text
        (codexScanLoginInfo text (codexScanAuthUrl text s)))
    else s
  | CodexEvent.stderr _ => s
  | CodexEvent.procError msg =>
    if !s.resolved then
      { s with resolved := true, fired := s.fired + 1,
               outcome := some (AttemptOutcome.rejected ("Expect process error: " ++ msg)),
               resolvedBy := some CodexSource.procError }
    else s
  | CodexEvent.successCheckFire isAuth =>
    if s.successChecksPending > 0 then
      let s := { s with successChecksPending := s.successChecksPending - 1 }
      if isAuth && !s.resolved then
        { s with resolved := true, fired := s.fired + 1,
                 outcome := some AttemptOutcome.resolvedOk,
                 resolvedBy := some CodexSource.loginSuccessCheck }
      else s
    else s
  | CodexEvent.configCheckTick authFileExists =>
    if s.configCheckActive then
      if authFileExists && !s.resolved then
        { s with configCheckActive := false, resolved := true, fired := s.fired + 1,
                 outcome := some AttemptOutcome.resolvedOk,
                 resolvedBy := some CodexSource.configCheck }
      else s
    else s
  | CodexEvent.procClose code =>
    if s.childAlive then
      let s := { s with childAlive := false, configCheckActive := false }
      if !s.resolved then { s with closeCheckPending := some code } else s
    else s
  | CodexEvent.closeCheckFire isAuth =>
    match s.closeCheckPending with
    | some code =>
      let s := { s with closeCheckPending := none }
      if !s.resolved then
        if isAuth || code = 0 then
          { s with resolved := true, fired := s.fired + 1,
                   outcome := some AttemptOutcome.resolvedOk,
                   resolvedBy := some CodexSource.closeCheck }
        else
          { s with resolved := true, fired := s.fired + 1,
                   outcome := some (AttemptOutcome.rejected
                     ("Expect script failed with code " ++ toString code)),
                   resolvedBy := some CodexSource.closeCheck }
      else s
    | none => s
  | CodexEvent.timeoutFire =>
    if s.timeoutArmed then
      let s := { s with timeoutArmed := false, configCheckActive := false }
      if !s.resolved then
        { s with resolved := true, killSent := true, fired := s.fired + 1,
                 outcome := some (AttemptOutcome.rejected "Codex login process timed out"),
                 resolvedBy := some CodexSource.timeout }
      else s
    else s

/-- Synchronous pre-spawn failure checks of `performCodexLogin` (lines
193-228): missing `expect` binary, missing packaged script, failed script
extraction when packaged.  Each calls `reject` once and returns before any
listener, timer or child process exists, so no machine event can follow. -/
def codexEarlyFailure (cfg : CodexConfig) : Option CodexState :=
  let halted : CodexState :=
    { codexInit with childAlive := false, configCheckActive := false, timeoutArmed := false }
  if !cfg.expectInstalled then
    some { halted with
           fired := 1, logsSent := 1,
           outcome := some (AttemptOutcome.rejected
             "expect is not installed. Please install it with: brew install expect") }
  else if !cfg.scriptExists then
    some { halted with
           fired := 1,
           outcome := some (AttemptOutcome.rejected "Expect script not found") }
  else if cfg.isPackaged && !cfg.copyOk then
    some { halted with
           fired := 1,
           outcome := some (AttemptOutcome.rejected
             "Failed to prepare automation script for Codex login.") }
  else none

/-- Run one `performCodexLogin` call: either an early synchronous rejection, or
the spawned attempt over its event-loop callbacks. -/
def codexRun (cfg : CodexConfig) (es : List CodexEvent) : CodexState :=
  match codexEarlyFailure cfg with
  | some s => s
  | none => es.foldl codexStep codexInit

/-- State of one `performStandardLogin` attempt (auth-manager.ts lines
380-451).  `listenerActive` is the `ipcMain.once` auth-completed listener;
`killResolvePending` the 3-second kill-then-resolve continuation scheduled by
the `checkAuth` interval (lines 429-432). -/
structure StdState where
  resolved : Bool
  authCompleted : Bool
  listenerActive : Bool
  timeoutArmed : Bool
  checkAuthActive : Bool
  killResolvePending : Bool
  childAlive : Bool
  killSent : Bool
  fired : Nat
  outcome : Option AttemptOutcome
  logsSent : Nat
  externalOpensScheduled : Nat
deriving DecidableEq

/-- Attempt state right after the spawn and listener registration. -/
def stdInit : StdState :=
  { resolved := false, authCompleted := false, listenerActive := true,
    timeoutArmed := true, checkAuthActive := true, killResolvePending := false,
    childAlive := true, killSent := false, fired := 0, outcome := none,
    logsSent := 0, externalOpensScheduled := 0 }

/-- Event-loop callbacks of a standard attempt. -/
inductive StdEvent
  | stdout (text : String)
  | stderr (text : String)
  | ipcAuthCompleted
  | timeoutFire
  | checkAuthTick
  | killResolveFire
  | procExit (code : Int)
deriving DecidableEq

/-- One event-loop callback of a standard attempt.  `stdout`/`stderr` are the
`setupStandardHandlers` data handlers (lines 458-477); `ipcAuthCompleted` an
`auth-completed-<tool>` emission delivered to the `ipcMain.once` listener;
`checkAuthTick` the 500 ms completion poll (lines 422-434), which resolves by
scheduling `killResolveFire` 3 seconds later; `procExit` the `exit` handler
(lines 436-449); `timeoutFire` the 5-minute timeout (lines 409-416).

The stdout data handler's body (`handleOutput`, lines 458-470) is the scan
stage below: clean and log the chunk, run `checkForAuthUrl` on the raw chunk,
and run `checkForAuthSuccess` on the cleaned chunk. -/
def stdScanOutput (text : String) (s : StdState) : StdState :=
  let clean := cleanTerminalOutput text
  let s := if strTrim clean != "" then { s with logsSent := s.logsSent + 1 } else s
  let s :=
    match checkForAuthUrl text with
    | some _ =>
      { s with logsSent := s.logsSent + 1,
               externalOpensScheduled := s.externalOpensScheduled + 1 }
    | none => s
  if checkForAuthSuccess clean then { s with authCompleted := true } else s

def stdStep (s : StdState) : StdEvent → StdState
  | StdEvent.stdout text =>
    if s.childAlive then stdScanOutput text s else s
  | StdEvent.stderr text =>
    if s.childAlive then
      let s := { s with logsSent := s.logsSent + 1 }
      if checkForAuthSuccess (strLower text) then { s with authCompleted := true } else s
    else s
  | StdEvent.ipcAuthCompleted =>
    if s.listenerActive then { s with listenerActive := false, authCompleted := true } else s
  | StdEvent.timeoutFire =>
    if s.timeoutArmed then
      let s := { s with timeoutArmed := false }
      if !s.resolved then
        { s with resolved := true, listenerActive := false, killSent := true,
                 fired := s.fired + 1,
                 outcome := some (AttemptOutcome.rejected "Login process timed out") }
      else s
    else s
  | StdEvent.checkAuthTick =>
    if s.checkAuthActive then
      if s.authCompleted && !s.resolved then
        { s with resolved := true, checkAuthActive := false, timeoutArmed := false,
                 listenerActive := false, killResolvePending := true }
      else s
    else s
  | StdEvent.killResolveFire =>
    if s.killResolvePending then
      { s with killResolvePending := false, killSent := true, fired := s.fired + 1,
               outcome := some AttemptOutcome.resolvedOk }
    else s
  | StdEvent.procExit code =>
    if s.childAlive then
      let s := { s with childAlive := false, checkAuthActive := false,
                        timeoutArmed := false, listenerActive := false }
      if !s.resolved then
        { s with resolved := true, fired := s.fired + 1,
                 outcome :=
                   if s.authCompleted || code = 0 then some AttemptOutcome.resolvedOk
                   else some (AttemptOutcome.rejected
                     ("Login process failed with code " ++ toString code)) }
      else s
    else s

/-- Run a standard attempt over a list of event-loop callbacks. -/
def stdRun (es : List StdEvent) : StdState := es.foldl stdStep stdInit


/-! ## Helper lemmas -/

theorem envGet_envDelete_self (e : Env) (k : String) : envGet (envDelete e k) k = none := by
  induction e with
  | nil => rfl
  | cons p e ih =>
    by_cases hp : p.1 = k <;> simp [envDelete, envGet, hp, ih]

theorem envGet_envDelete_none (e : Env) (k k' : String) (h : envGet e k = none) :
    envGet (envDelete e k') k = none := by
  induction e with
  | nil => rfl
  | cons p e ih =>
    by_cases hp : p.1 = k
    · simp [envGet, hp] at h
    · by_cases hp' : p.1 = k' <;>
        simp_all [envGet, envDelete, hp, hp']

theorem envGet_envSet_ne (e : Env) (k k' v : String) (h : k ≠ k') :
    envGet (envSet e k' v) k = envGet (envDelete e k') k := by
  simp [envSet, envGet, Ne.symm h]

theorem envGet_deleteAll_none (ks : List String) (e : Env) (k : String)
    (h : envGet e k = none) : envGet (ks.foldl envDelete e) k = none := by
  induction ks generalizing e with
  | nil => exact h
  | cons k' ks ih => exact ih _ (envGet_envDelete_none e k k' h)

theorem envGet_deleteAll_mem (ks : List String) :
    ∀ (e : Env) (k : String), k ∈ ks → envGet (ks.foldl envDelete e) k = none := by
  induction ks with
  | nil =>
    intro e k h
    cases h
  | cons k' ks ih =>
    intro e k h
    rcases List.mem_cons.mp h with h1 | h2
    · subst h1
      exact envGet_deleteAll_none ks _ k (envGet_envDelete_self e k)
    · exact ih _ k h2

theorem dedupFirstAux_mem (l : List String) :
    ∀ (seen : List String) (x : String), x ∈ dedupFirstAux seen l ↔ x ∈ l ∧ x ∉ seen := by
  induction l with
  | nil => intro seen x; simp [dedupFirstAux]
  | cons y l ih =>
    intro seen x
    simp only [dedupFirstAux]
    split_ifs with hy
    · rw [ih]
      constructor
      · rintro ⟨h1, h2⟩
        exact ⟨List.mem_cons_of_mem y h1, h2⟩
      · rintro ⟨h1, h2⟩
        rcases List.mem_cons.mp h1 with rfl | h1
        · exact absurd hy h2
        · exact ⟨h1, h2⟩
    · simp only [List.mem_cons, ih]
      constructor
      · rintro (rfl | ⟨h1, h2⟩)
        · exact ⟨Or.inl rfl, hy⟩
        · refine ⟨Or.inr h1, ?_⟩
          intro hs
          exact h2 (Or.inr hs)
      · rintro ⟨rfl | h1, h2⟩
        · exact Or.inl rfl
        · by_cases hxy : x = y
          · exact Or.inl hxy
          · refine Or.inr ⟨h1, ?_⟩
            rintro (h | h)
            · exact hxy h
            · exact h2 h

theorem dedupFirstAux_nodup (l : List String) :
    ∀ seen : List String, (dedupFirstAux seen l).Nodup := by
  induction l with
  | nil => intro seen; exact List.nodup_nil
  | cons y l ih =>
    intro seen
    simp only [dedupFirstAux]
    split_ifs with hy
    · exact ih seen
    · refine List.Nodup.cons ?_ (ih (y :: seen))
      intro hmem
      exact ((dedupFirstAux_mem l (y :: seen) y).mp hmem).2 (List.mem_cons_self y seen)

theorem dedupFirst_mem (l : List String) (x : String) : x ∈ dedupFirst l ↔ x ∈ l := by
  simp [dedupFirst, dedupFirstAux_mem]

theorem dedupFirst_nodup (l : List String) : (dedupFirst l).Nodup :=
  dedupFirstAux_nodup l []

theorem foldlPreserves {σ ε : Type} (P : σ → Prop) (f : σ → ε → σ)
    (h : ∀ s e, P s → P (f s e)) :
    ∀ (es : List ε) (s : σ), P s → P (es.foldl f s)
  | [], _, hs => hs
  | e :: es, s, hs => foldlPreserves P f h es (f s e) (h s e hs)

theorem geminiStep_exactlyOnce (s : GeminiState) (e : GeminiEvent)
    (h : s.fired = (if s.resolved then 1 else 0)) :
    (geminiStep s e).fired = (if (geminiStep s e).resolved then 1 else 0) := by
  cases e <;> simp only [geminiStep, geminiOnAuthComplete] <;>
    split_ifs <;> simp_all

theorem codexScan_preserves (text : String) (s : CodexState) :
    ((codexScanLoginSuccess text (codexScanLoginInfo text (codexScanAuthUrl text s))).resolved
       = s.resolved) ∧
    ((codexScanLoginSuccess text (codexScanLoginInfo text (codexScanAuthUrl text s))).fired
       = s.fired) ∧
    ((codexScanLoginSuccess text (codexScanLoginInfo text (codexScanAuthUrl text s))).outcome
       = s.outcome) ∧
    ((codexScanLoginSuccess text (codexScanLoginInfo text (codexScanAuthUrl text s))).resolvedBy
       = s.resolvedBy) ∧
    ((codexScanLoginSuccess text (codexScanLoginInfo text (codexScanAuthUrl text s))).configCheckActive
       = s.configCheckActive) ∧
    ((codexScanLoginSuccess text (codexScanLoginInfo text (codexScanAuthUrl text s))).timeoutArmed
       = s.timeoutArmed) ∧
    ((codexScanLoginSuccess text (codexScanLoginInfo text (codexScanAuthUrl text s))).killSent
       = s.killSent) := by
  refine ⟨?_, ?_, ?_, ?_, ?_, ?_, ?_⟩ <;>
    (simp only [codexScanLoginSuccess, codexScanLoginInfo, codexScanAuthUrl]
     (repeat' split) <;> rfl)

theorem codexFailed_exactlyOnce (text : String) (s : CodexState)
    (h : s.fired = (if s.resolved then 1 else 0)) :
    (codexScanLoginFailed text s).fired
      = (if (codexScanLoginFailed text s).resolved then 1 else 0) := by
  simp only [codexScanLoginFailed]
  repeat' split <;> simp_all

theorem codexStep_exactlyOnce (s : CodexState) (e : CodexEvent)
    (h : s.fired = (if s.resolved then 1 else 0)) :
    (codexStep s e).fired = (if (codexStep s e).resolved then 1 else 0) := by
  cases e with
  | stdout text =>
    simp only [codexStep]
    split
    · have hp := codexScan_preserves text s
      apply codexFailed_exactlyOnce
      rw [hp.1, hp.2.1]
      exact h
    · exact h
  | _ => ?_
  all_goals (simp only [codexStep] <;> repeat' split <;> first | exact h | simp_all | omega)

theorem stdScan_preserves (text : String) (s : StdState) :
    (stdScanOutput text s).resolved = s.resolved ∧
    (stdScanOutput text s).fired = s.fired ∧
    (stdScanOutput text s).killResolvePending = s.killResolvePending ∧
    (stdScanOutput text s).outcome = s.outcome := by
  refine ⟨?_, ?_, ?_, ?_⟩ <;>
    (simp only [stdScanOutput]
     (repeat' split) <;> rfl)

theorem stdStep_exactlyOnce (s : StdState) (e : StdEvent)
    (h : s.fired + (if s.killResolvePending then 1 else 0)
       = (if s.resolved then 1 else 0)) :
    (stdStep s e).fired + (if (stdStep s e).killResolvePending then 1 else 0)
      = (if (stdStep s e).resolved then 1 else 0) := by
  cases e with
  | stdout text =>
    simp only [stdStep]
    split
    · have hp := stdScan_preserves text s
      rw [hp.1, hp.2.1, hp.2.2.1]
      exact h
    · exact h
  | _ => ?_
  all_goals (simp only [stdStep] <;> repeat' split <;> first | exact h | simp_all | omega)

theorem geminiStep_stable (s : GeminiState) (e : GeminiEvent) (h : s.resolved = true) :
    (geminiStep s e).fired = s.fired ∧ (geminiStep s e).outcome = s.outcome ∧
    (geminiStep s e).resolved = true := by
  cases e <;> simp only [geminiStep, geminiOnAuthComplete] <;>
    split_ifs <;> simp_all

theorem codexStep_stable (s : CodexState) (e : CodexEvent) (h : s.resolved = true) :
    (codexStep s e).fired = s.fired ∧ (codexStep s e).outcome = s.outcome ∧
    (codexStep s e).resolved = true := by
  cases e with
  | stdout text =>
    simp only [codexStep]
    split
    · have hp := codexScan_preserves text s
      simp only [codexScanLoginFailed]
      repeat' split <;> simp_all
    · exact ⟨rfl, rfl, h⟩
  | stderr text => exact ⟨rfl, rfl, h⟩
  | _ => ?_
  all_goals (simp only [codexStep] <;> repeat' split <;> simp_all)

theorem geminiStep_cleanupInv (s : GeminiState) (e : GeminiEvent)
    (h : (s.resolvedBy = some GeminiSource.timeout →
            s.credPollActive = false ∧ s.killSent = true ∧ s.timeoutArmed = false)
       ∧ (s.resolvedBy = some GeminiSource.close →
            s.credPollActive = false ∧ s.timeoutArmed = false ∧ s.childAlive = false)) :
    ((geminiStep s e).resolvedBy = some GeminiSource.timeout →
        (geminiStep s e).credPollActive = false ∧ (geminiStep s e).killSent = true ∧
        (geminiStep s e).timeoutArmed = false)
    ∧ ((geminiStep s e).resolvedBy = some GeminiSource.close →
        (geminiStep s e).credPollActive = false ∧ (geminiStep s e).timeoutArmed = false ∧
        (geminiStep s e).childAlive = false) := by
  cases e <;> simp only [geminiStep, geminiOnAuthComplete] <;>
    split_ifs <;> simp_all

theorem codexStep_cleanupInv (s : CodexState) (e : CodexEvent)
    (h : s.resolvedBy = some CodexSource.timeout →
           s.configCheckActive = false ∧ s.killSent = true ∧ s.timeoutArmed = false) :
    (codexStep s e).resolvedBy = some CodexSource.timeout →
      (codexStep s e).configCheckActive = false ∧ (codexStep s e).killSent = true ∧
      (codexStep s e).timeoutArmed = false := by
  cases e with
  | stdout text =>
    simp only [codexStep]
    split
    · have hp := codexScan_preserves text s
      generalize hq : codexScanLoginSuccess text
        (codexScanLoginInfo text (codexScanAuthUrl text s)) = t at hp
      obtain ⟨e1, e2, e3, e4, e5, e6, e7⟩ := hp
      simp only [codexScanLoginFailed]
      (repeat' split) <;> (intro hx; simp_all)
    · exact h
  | stderr text => exact h
  | _ => ?_
  all_goals (simp only [codexStep]; (repeat' split) <;> first | exact h | (intro hx; simp_all))

/-! ## Additional helper lemmas for the claim theorems -/

theorem envGet_envDelete_ne (e : Env) (k k' : String) (h : k ≠ k') :
    envGet (envDelete e k') k = envGet e k := by
  induction e with
  | nil => rfl
  | cons p e ih =>
    by_cases hp : p.1 = k' <;> by_cases hpk : p.1 = k
    · exact absurd (hpk.symm.trans hp) h
    · simp [envDelete, envGet, hp, hpk, ih, h, Ne.symm h]
    · simp [envDelete, envGet, hp, hpk, ih, h, Ne.symm h]
    · simp [envDelete, envGet, hp, hpk, ih, h, Ne.symm h]

theorem envGet_envSet_self (e : Env) (k v : String) :
    envGet (envSet e k v) k = some v := by
  simp [envSet, envGet]

theorem envGet_spawnEnv_unset (p : Platform) (home : String) (env : Env) (k : String)
    (hk : k ∈ unsetVars) (h1 : k ≠ "PATH") (h2 : k ≠ "TERM") (h3 : k ≠ "FORCE_COLOR") :
    envGet (getSpawnEnv p home env) k = none := by
  have hsan : ∀ ep, envGet (sanitizeEnvForOAuth p home env ep) k = none := by
    intro ep
    have hbase : envGet (envSet (unsetVars.foldl envDelete env) "PATH"
        (ep.getD (getEnhancedPath p home env))) k = none := by
      rw [envGet_envSet_ne _ _ _ _ h1]
      exact envGet_envDelete_none _ _ _ (envGet_deleteAll_mem unsetVars env k hk)
    simp only [sanitizeEnvForOAuth]
    split
    · exact envGet_envDelete_none _ _ _ hbase
    · exact hbase
  simp only [getSpawnEnv]
  rw [envGet_envSet_ne _ _ _ _ h3]
  apply envGet_envDelete_none
  rw [envGet_envSet_ne _ _ _ _ h2]
  apply envGet_envDelete_none
  exact hsan _

theorem cbStep_inv (s : CbState) (e : CbEvent)
    (h : (s.ipcOnceActive = true → s.ipcDeliveries = 0) ∧ s.ipcDeliveries ≤ 1) :
    ((cbStep s e).ipcOnceActive = true → (cbStep s e).ipcDeliveries = 0)
    ∧ (cbStep s e).ipcDeliveries ≤ 1 := by
  cases e <;> simp only [cbStep] <;> (repeat' split) <;> simp_all <;> omega

theorem codexEarly_resolvedBy (cfg : CodexConfig) (s : CodexState)
    (h : codexEarlyFailure cfg = some s) : s.resolvedBy = none := by
  revert h
  rw [codexEarlyFailure]
  split_ifs <;> intro h <;> first
    | (injection h with h2; rw [← h2]; rfl)
    | exact h.elim

/-! ## Claim theorems -/

/-- C1: for every login attempt started by `performLogin` — the Gemini spawn
path, the Codex expect-script path, and the standard path — at most one of
`resolve`/`reject` ever fires: every completion source (success-phrase
detection, credential-file polling tick, child-process exit, external
auth-completed signal, wall-clock timeout) is guarded by the attempt's
`resolved` flag, so no sequence of event-loop callbacks produces a second
resolution or a rejection after a resolution. -/
theorem c1_at_most_one_resolution_per_attempt :
    (∀ es : List GeminiEvent, (geminiRun es).fired ≤ 1)
    ∧ (∀ (cfg : CodexConfig) (es : List CodexEvent), (codexRun cfg es).fired ≤ 1)
    ∧ (∀ es : List StdEvent, (stdRun es).fired ≤ 1) := by
  refine ⟨?_, ?_, ?_⟩
  · intro es
    have h := foldlPreserves (fun s => s.fired = (if s.resolved then 1 else 0))
      geminiStep geminiStep_exactlyOnce es geminiInit rfl
    simp only [] at h
    rw [geminiRun]
    split at h <;> omega
  · intro cfg es
    rw [codexRun]
    rcases hc : codexEarlyFailure cfg with _ | s
    · have h := foldlPreserves (fun s => s.fired = (if s.resolved then 1 else 0))
        codexStep codexStep_exactlyOnce es codexInit rfl
      simp only [] at h
      simp only [hc]
      split at h <;> omega
    · revert hc
      rw [codexEarlyFailure]
      split_ifs <;>
        (intro hc
         first
         | (injection hc with hc2; rw [← hc2]; try simp)
         | exact hc.elim)
  · intro es
    have h := foldlPreserves
      (fun s => s.fired + (if s.killResolvePending then 1 else 0) = (if s.resolved then 1 else 0))
      stdStep stdStep_exactlyOnce es stdInit rfl
    simp only [] at h
    rw [stdRun]
    split at h <;> split at h <;> omega

/-- C2, counterexample: in the Gemini attempt a recognized success phrase in
the CLI output resolves the attempt, but the credential-poll interval and the
2-minute timeout stay armed, the child process is not killed, and a later poll
tick still emits a log line — refuting the claim that on resolution every
timer/interval the attempt created is cleared and the child terminated, with
no further side effects when time advances. -/
theorem c2_counterexample_success_phrase_resolution_leaks :
    (geminiRun [GeminiEvent.stdout "Authentication successful"]).resolved = true
    ∧ (geminiRun [GeminiEvent.stdout "Authentication successful"]).outcome
        = some AttemptOutcome.resolvedOk
    ∧ (geminiRun [GeminiEvent.stdout "Authentication successful"]).credPollActive = true
    ∧ (geminiRun [GeminiEvent.stdout "Authentication successful"]).timeoutArmed = true
    ∧ (geminiRun [GeminiEvent.stdout "Authentication successful"]).childAlive = true
    ∧ (geminiRun [GeminiEvent.stdout "Authentication successful"]).killSent = false
    ∧ (geminiRun [GeminiEvent.stdout "Authentication successful",
        GeminiEvent.credPollTick true]).logsSent
      = (geminiRun [GeminiEvent.stdout "Authentication successful"]).logsSent + 1 := by
  decide

/-- C2, amended: once a Gemini or Codex attempt resolves, no further event can
fire the promise again or change its outcome; but full teardown happens only on
the timeout path (poll interval cleared, child killed) and the process-close
path (poll interval and timeout cleared, child gone).  Resolution via
success-phrase detection (Gemini) or the `LOGIN_SUCCESS` re-check (Codex)
leaves the poll interval and the wall-clock timeout armed and the child
process running. -/
theorem c2_amended_cleanup_only_on_timeout_and_close_paths :
    (∀ (es : List GeminiEvent) (e : GeminiEvent),
        (geminiRun es).resolved = true →
          (geminiRun (es ++ [e])).fired = (geminiRun es).fired
          ∧ (geminiRun (es ++ [e])).outcome = (geminiRun es).outcome)
    ∧ (∀ es : List GeminiEvent,
        (geminiRun es).resolvedBy = some GeminiSource.timeout →
          (geminiRun es).credPollActive = false ∧ (geminiRun es).killSent = true
          ∧ (geminiRun es).timeoutArmed = false)
    ∧ (∀ es : List GeminiEvent,
        (geminiRun es).resolvedBy = some GeminiSource.close →
          (geminiRun es).credPollActive = false ∧ (geminiRun es).timeoutArmed = false
          ∧ (geminiRun es).childAlive = false)
    ∧ (∀ (cfg : CodexConfig) (es : List CodexEvent) (e : CodexEvent),
        (codexRun cfg es).resolved = true →
          (codexRun cfg (es ++ [e])).fired = (codexRun cfg es).fired
          ∧ (codexRun cfg (es ++ [e])).outcome = (codexRun cfg es).outcome)
    ∧ (∀ (cfg : CodexConfig) (es : List CodexEvent),
        (codexRun cfg es).resolvedBy = some CodexSource.timeout →
          (codexRun cfg es).configCheckActive = false ∧ (codexRun cfg es).killSent = true
          ∧ (codexRun cfg es).timeoutArmed = false)
    ∧ ((codexRun ⟨true, true, false, true⟩
          [CodexEvent.stdout "LOGIN_SUCCESS", CodexEvent.successCheckFire true]).resolved = true
       ∧ (codexRun ⟨true, true, false, true⟩
            [CodexEvent.stdout "LOGIN_SUCCESS", CodexEvent.successCheckFire true]).configCheckActive
           = true
       ∧ (codexRun ⟨true, true, false, true⟩
            [CodexEvent.stdout "LOGIN_SUCCESS", CodexEvent.successCheckFire true]).timeoutArmed
           = true
       ∧ (codexRun ⟨true, true, false, true⟩
            [CodexEvent.stdout "LOGIN_SUCCESS", CodexEvent.successCheckFire true]).killSent
           = false) := by
  refine ⟨?_, ?_, ?_, ?_, ?_, by decide⟩
  · intro es e hres
    rw [geminiRun, List.foldl_append]
    have h := geminiStep_stable (geminiRun es) e hres
    rw [geminiRun] at h
    exact ⟨h.1, h.2.1⟩
  · intro es hby
    have h := foldlPreserves
      (fun s => (s.resolvedBy = some GeminiSource.timeout →
            s.credPollActive = false ∧ s.killSent = true ∧ s.timeoutArmed = false)
          ∧ (s.resolvedBy = some GeminiSource.close →
            s.credPollActive = false ∧ s.timeoutArmed = false ∧ s.childAlive = false))
      geminiStep geminiStep_cleanupInv es geminiInit (by simp [geminiInit])
    exact h.1 hby
  · intro es hby
    have h := foldlPreserves
      (fun s => (s.resolvedBy = some GeminiSource.timeout →
            s.credPollActive = false ∧ s.killSent = true ∧ s.timeoutArmed = false)
          ∧ (s.resolvedBy = some GeminiSource.close →
            s.credPollActive = false ∧ s.timeoutArmed = false ∧ s.childAlive = false))
      geminiStep geminiStep_cleanupInv es geminiInit (by simp [geminiInit])
    exact h.2 hby
  · intro cfg es e hres
    rcases hc : codexEarlyFailure cfg with _ | s
    · simp only [codexRun, hc] at hres ⊢
      rw [List.foldl_append]
      have h := codexStep_stable (List.foldl codexStep codexInit es) e hres
      exact ⟨h.1, h.2.1⟩
    · simp only [codexRun, hc] at hres ⊢
      exact ⟨trivial, trivial⟩
  · intro cfg es hby
    rcases hc : codexEarlyFailure cfg with _ | s
    · simp only [codexRun, hc] at hby ⊢
      have h := foldlPreserves
        (fun s => s.resolvedBy = some CodexSource.timeout →
            s.configCheckActive = false ∧ s.killSent = true ∧ s.timeoutArmed = false)
        codexStep codexStep_cleanupInv es codexInit (by simp [codexInit])
      exact h hby
    · simp only [codexRun, hc] at hby ⊢
      rw [codexEarly_resolvedBy cfg s hc] at hby
      cases hby

/-- C2, witness: the amended theorem applied to the concrete timeout trace —
after a timeout resolution the poll interval is cleared, the child was killed,
and a further poll tick does not change the fired count. -/
theorem c2_amended_witness :
    (geminiRun ([GeminiEvent.timeoutFire] ++ [GeminiEvent.credPollTick true])).fired
      = (geminiRun [GeminiEvent.timeoutFire]).fired
    ∧ (geminiRun [GeminiEvent.timeoutFire]).credPollActive = false
    ∧ (geminiRun [GeminiEvent.timeoutFire]).killSent = true :=
  ⟨(c2_amended_cleanup_only_on_timeout_and_close_paths.1 [GeminiEvent.timeoutFire]
      (GeminiEvent.credPollTick true) (by decide)).1,
   (c2_amended_cleanup_only_on_timeout_and_close_paths.2.1 [GeminiEvent.timeoutFire]
      (by decide)).1,
   (c2_amended_cleanup_only_on_timeout_and_close_paths.2.1 [GeminiEvent.timeoutFire]
      (by decide)).2.1⟩

/-- C3: for every tool ID, calling `connectTool` while the tool's connection
state has `inProgress = true` or `connected = true` is a silent no-op — the
state map is unchanged and the IPC connect request is not issued — while a
call with both flags false sets `inProgress = true` (leaving `connected` and
every other tool's state unchanged) before any asynchronous work begins, and
issues the request. -/
theorem c3_connect_is_noop_when_inprogress_or_connected :
    ∀ (st : ToolStates) (t : ToolId),
      (((st t).connected = true ∨ (st t).inProgress = true) →
          connectTool st t = (st, false))
      ∧ ((st t).connected = false → (st t).inProgress = false →
          (connectTool st t).2 = true
          ∧ ((connectTool st t).1 t).inProgress = true
          ∧ ((connectTool st t).1 t).connected = (st t).connected
          ∧ (∀ u, u ≠ t → (connectTool st t).1 u = st u)) := by
  intro st t
  constructor
  · rintro (h | h) <;> simp [connectTool, h]
  · intro h1 h2
    refine ⟨?_, ?_, ?_, ?_⟩ <;>
      simp [connectTool, h1, h2, setToolState]
    intro u hu
    simp [hu]

/-- C3, witness: the guard theorem applied to a connected tool (no-op) and to
an idle tool (request issued, `inProgress` set). -/
theorem c3_witness :
    connectTool (fun _ => { connected := true, inProgress := false }) ToolId.codex
      = ((fun _ => { connected := true, inProgress := false }), false)
    ∧ (connectTool (fun _ => { connected := false, inProgress := false }) ToolId.gemini).2 = true
    ∧ ((connectTool (fun _ => { connected := false, inProgress := false }) ToolId.gemini).1
        ToolId.gemini).inProgress = true :=
  ⟨(c3_connect_is_noop_when_inprogress_or_connected _ ToolId.codex).1 (Or.inl rfl),
   ((c3_connect_is_noop_when_inprogress_or_connected _ ToolId.gemini).2 rfl rfl).1,
   ((c3_connect_is_noop_when_inprogress_or_connected _ ToolId.gemini).2 rfl rfl).2.1⟩

/-- C4: the callback server answers every request (an accepted-path request
renders the page, emits the auth-completed signals, and schedules the delayed
close; a second rapid request does the same rather than throwing or hanging),
and the per-attempt `ipcMain.once` listener delivers the auth-completed signal
to the controller at most once over any event sequence — in particular exactly
once for two rapid successive accepted requests. -/
theorem c4_callback_completion_idempotent_for_controller :
    (∀ es : List CbEvent, (cbRun cbInitWithListener es).ipcDeliveries ≤ 1)
    ∧ (cbRun cbInitWithListener
        [CbEvent.request CbPath.callback, CbEvent.request CbPath.root]).responsesSent = 2
    ∧ (cbRun cbInitWithListener
        [CbEvent.request CbPath.callback, CbEvent.request CbPath.root]).emitsAuthCompleted = 2
    ∧ (cbRun cbInitWithListener
        [CbEvent.request CbPath.callback, CbEvent.request CbPath.root]).ipcDeliveries = 1
    ∧ (cbRun cbInitWithListener
        [CbEvent.request CbPath.callback, CbEvent.request CbPath.root]).authCompletedFlag
        = true := by
  refine ⟨?_, by decide, by decide, by decide, by decide⟩
  intro es
  have h := foldlPreserves
    (fun s => (s.ipcOnceActive = true → s.ipcDeliveries = 0) ∧ s.ipcDeliveries ≤ 1)
    cbStep cbStep_inv es cbInitWithListener
    ⟨fun _ => rfl, by simp [cbInitWithListener, cbInit]⟩
  exact h.2

/-- C5: `extractCredentials(tool)` with no credential present at any candidate
location never rejects: it is total and returns a descriptor whose status is
`authenticated` — the degraded `verification skipped` descriptor with storage
`unknown` for Claude, the generic `storage: unknown` descriptor for Codex, and
for Gemini the base descriptor without an `oauth` payload together with the
softer `credentials cached locally` log line. -/
theorem c5_extract_without_credentials_is_degraded_success :
    ∀ (p : Platform) (jp : JsonOracle) (fs : CredFS), credFSEmpty fs = true →
      ∀ t : ToolId,
        (authManagerExtractCredentials p jp fs t).1.status = "authenticated"
        ∧ (t = ToolId.claude →
            (authManagerExtractCredentials p jp fs t).1 = claudeDegradedCreds)
        ∧ (t = ToolId.codex →
            (authManagerExtractCredentials p jp fs t).1.message
              = "Tool authenticated successfully"
            ∧ (authManagerExtractCredentials p jp fs t).1.storage = some "unknown")
        ∧ (t = ToolId.gemini →
            (authManagerExtractCredentials p jp fs t).1.oauthPresent = false
            ∧ (authManagerExtractCredentials p jp fs t).2
              = ["Authentication completed (credentials cached locally)"]) := by
  intro p jp fs hfs t
  obtain ⟨k1, k2, k3, k4, k5⟩ := fs
  simp only [credFSEmpty, Bool.and_eq_true, Option.isNone_iff_eq_none] at hfs
  obtain ⟨⟨⟨⟨h1, h2⟩, h3⟩, h4⟩, h5⟩ := hfs
  subst h1 h2 h3 h4 h5
  cases t <;> cases p <;>
    simp [authManagerExtractCredentials, claudeServiceExtractCredentials,
      codexTryPath, claudeDegradedCreds, blankCreds]

/-- C5, witness: the degraded-success theorem at the empty filesystem with a
parser oracle that always fails. -/
theorem c5_witness :
    (authManagerExtractCredentials Platform.linux (fun _ => none) emptyCredFS
      ToolId.codex).1.status = "authenticated"
    ∧ (authManagerExtractCredentials Platform.darwin (fun _ => none) emptyCredFS
        ToolId.claude).1 = claudeDegradedCreds :=
  ⟨(c5_extract_without_credentials_is_degraded_success Platform.linux (fun _ => none)
      emptyCredFS (by decide) ToolId.codex).1,
   (c5_extract_without_credentials_is_degraded_success Platform.darwin (fun _ => none)
      emptyCredFS (by decide) ToolId.claude).2.1 rfl⟩

/-- C6, counterexample: for the Claude tool, `logoutTool` with no credential
present anywhere still returns an error result when spawning the `claude`
binary for the CLI logout fails — refuting the claim that logout with no
credentials never returns an error and always uses a
`nothing to remove`-style message (Claude's success message is
`Claude logged out successfully`, not a `nothing to remove` phrasing). -/
theorem c6_counterexample_claude_logout_error_result :
    logoutTool Platform.linux
      { codexDirExists := false, geminiDirExists := false,
        claudeKeychainExists := false, claudeJsonExists := false } none false ToolId.claude
      = { success := false, message := "Failed to logout from Claude" } := by
  decide

/-- C6, amended: for Codex and Gemini, logout with no credential directory
returns success with the `No ... credentials to remove` message; for Claude,
logout runs the CLI logout and the credential removal in parallel — with no
credential present it returns success `Claude logged out successfully` when
the CLI logout resolves true, but an error result when spawning the CLI
fails. -/
theorem c6_amended_logout_nothing_to_remove :
    ∀ (p : Platform) (fs : LogoutFS) (rmErr : Option String) (cliOk : Bool),
      (fs.codexDirExists = false →
          logoutTool p fs rmErr cliOk ToolId.codex
            = { success := true, message := "No Codex credentials to remove" })
      ∧ (fs.geminiDirExists = false →
          logoutTool p fs rmErr cliOk ToolId.gemini
            = { success := true, message := "No Gemini credentials to remove" })
      ∧ (cliOk = true → removeStoredCredentials p fs = false →
          logoutTool p fs rmErr cliOk ToolId.claude
            = { success := true, message := "Claude logged out successfully" })
      ∧ (cliOk = false → (logoutTool p fs rmErr cliOk ToolId.claude).success = false) := by
  intro p fs rmErr cliOk
  refine ⟨?_, ?_, ?_, ?_⟩
  · intro h
    simp [logoutTool, logoutCodexWithResult, h]
  · intro h
    simp [logoutTool, logoutGemini, h]
  · intro h1 h2
    simp [logoutTool, claudeServiceLogout, h1, h2]
  · intro h
    simp [logoutTool, claudeServiceLogout, h]

/-- C6, witness: the amended logout theorem at an empty filesystem. -/
theorem c6_amended_witness :
    logoutTool Platform.linux
      { codexDirExists := false, geminiDirExists := false,
        claudeKeychainExists := false, claudeJsonExists := false } none true ToolId.codex
      = { success := true, message := "No Codex credentials to remove" }
    ∧ logoutTool Platform.linux
      { codexDirExists := false, geminiDirExists := false,
        claudeKeychainExists := false, claudeJsonExists := false } none true ToolId.gemini
      = { success := true, message := "No Gemini credentials to remove" }
    ∧ logoutTool Platform.linux
      { codexDirExists := false, geminiDirExists := false,
        claudeKeychainExists := false, claudeJsonExists := false } none true ToolId.claude
      = { success := true, message := "Claude logged out successfully" } :=
  ⟨(c6_amended_logout_nothing_to_remove Platform.linux _ none true).1 rfl,
   (c6_amended_logout_nothing_to_remove Platform.linux _ none true).2.1 rfl,
   (c6_amended_logout_nothing_to_remove Platform.linux _ none true).2.2.1 rfl rfl⟩

/-- C7, counterexample: a redirect URL that matches a generic success pattern
(`code=`) and also contains the substring `error` triggers both branches of
`handleRedirect` — `completed` is recorded and the success flow starts, but the
error branch also fires `reject` synchronously, so the attempt settles as
rejected, not as a success — refuting the `first match wins` claim. -/
theorem c7_counterexample_success_url_with_error_substring_rejects :
    matchesSuccessUrl ToolId.codex "https://example.com/callback?code=abc&error=denied" = true
    ∧ (handleRedirect ToolId.codex false
        "https://example.com/callback?code=abc&error=denied").completed = true
    ∧ (handleRedirect ToolId.codex false
        "https://example.com/callback?code=abc&error=denied").immediateReject = true
    ∧ redirectSettles (handleRedirect ToolId.codex false
        "https://example.com/callback?code=abc&error=denied") = some false := by
  decide

/-- C7, amended: on every navigation event the URL is tested against the
tool-specific and generic success patterns and, independently (not in an
`else` branch), against the `error`/`denied` substrings.  A success match
records `completed` and schedules the delayed success flow; an `error`/`denied`
hit closes the window and rejects synchronously, and since a promise settles
once, a URL matching both fails the attempt.  A success URL without an error
substring resolves the attempt, and once `completed` is recorded all further
navigation events are ignored. -/
theorem c7_amended_success_and_error_checks_independent :
    ∀ (t : ToolId) (url : String),
      (handleRedirect t true url
        = { completed := true, windowClosed := false, loadedCode := none,
            loadedSuccessPage := false, scheduledResolve := false,
            immediateReject := false })
      ∧ (matchesSuccessUrl t url = true →
          (handleRedirect t false url).completed = true
          ∧ (handleRedirect t false url).scheduledResolve = true)
      ∧ ((strIncludes (strLower url) "error" || strIncludes (strLower url) "denied") = true →
          (handleRedirect t false url).immediateReject = true
          ∧ redirectSettles (handleRedirect t false url) = some false)
      ∧ (matchesSuccessUrl t url = true →
          (strIncludes (strLower url) "error" || strIncludes (strLower url) "denied") = false →
          redirectSettles (handleRedirect t false url) = some true) := by
  intro t url
  refine ⟨?_, ?_, ?_, ?_⟩
  · simp [handleRedirect]
  · intro h
    rcases hcode : extractAuthCode url with _ | code <;>
      simp only [handleRedirect, h, hcode] <;> (repeat' split) <;> simp_all
  · intro h
    rcases hcode : extractAuthCode url with _ | code <;>
      simp only [handleRedirect, h, hcode, redirectSettles] <;>
      (repeat' split) <;> simp_all
  · intro h1 h2
    rcases hcode : extractAuthCode url with _ | code <;>
      simp only [handleRedirect, h1, h2, hcode, redirectSettles] <;>
      (repeat' split) <;> simp_all

/-- C7, witness: the amended theorem at concrete URLs — a clean success URL
resolves, an error URL rejects. -/
theorem c7_amended_witness :
    (handleRedirect ToolId.codex false "https://example.com/cb?code=xyz").completed = true
    ∧ redirectSettles (handleRedirect ToolId.codex false "https://example.com/cb?code=xyz")
        = some true
    ∧ redirectSettles (handleRedirect ToolId.gemini false "https://x.io/a?error=1")
        = some false :=
  ⟨((c7_amended_success_and_error_checks_independent ToolId.codex
      "https://example.com/cb?code=xyz").2.1 (by decide)).1,
   (c7_amended_success_and_error_checks_independent ToolId.codex
      "https://example.com/cb?code=xyz").2.2.2 (by decide) (by decide),
   ((c7_amended_success_and_error_checks_independent ToolId.gemini
      "https://x.io/a?error=1").2.2.1 (by decide)).2⟩

/-- C8, counterexample: in `checkForAuthUrl` the generic `https?://` pattern is
the first entry of the pattern list, so for `Visit https://example.com/auth`
the pattern that matches is the generic one — even though the visit-specific
pattern would also match — refuting the claim that the explicit
visit/open/navigate phrasings are tried first and the generic match last. -/
theorem c8_counterexample_generic_pattern_matches_visit_line :
    (checkForAuthUrl "Visit https://example.com/auth").map Prod.fst = some UrlPat.generic
    ∧ (phraseUrlMatch "visit" "Visit https://example.com/auth").isSome = true
    ∧ UrlPat.generic ≠ UrlPat.visit := by
  decide

/-- C8, amended: `urlPatterns` lists the generic global `https?://` pattern
first and the `Open...browser`/`Visit`/`Navigate to` phrasings after it;
`checkForAuthUrl` acts on the first pattern that matches, so whenever the
generic pattern matches at all it is the one that acts, taking the last URL
occurrence in the chunk (with trailing bracket/quote junk stripped).  For
`Visit https://example.com/auth` the generic pattern extracts
`https://example.com/auth`. -/
theorem c8_amended_generic_pattern_tried_first :
    urlPatterns = [UrlPat.generic, UrlPat.openBrowser, UrlPat.visit, UrlPat.navigateTo]
    ∧ (∀ s u : String, (urlMatches exclGeneric s).getLast? = some u →
        checkForAuthUrl s = some (UrlPat.generic, stripTrailingJunk u))
    ∧ checkForAuthUrl "Visit https://example.com/auth"
        = some (UrlPat.generic, "https://example.com/auth") := by
  refine ⟨rfl, ?_, by decide⟩
  intro s u h
  simp [checkForAuthUrl, urlPatterns, patMatchLast, h]

/-- C8, witness: the amended theorem's generic-first clause at a concrete
output chunk holding two URLs (the last one is taken, junk stripped). -/
theorem c8_amended_witness :
    checkForAuthUrl "see https://a.io/b and (https://c.d/e)" = some (UrlPat.generic, "https://c.d/e") :=
  c8_amended_generic_pattern_tried_first.2.1 "see https://a.io/b and (https://c.d/e)"
    "https://c.d/e" (by decide)

/-- C9: for every environment snapshot on every platform, `getSpawnEnv` (via
`sanitizeEnvForOAuth`) totally returns a mapping with none of the denylist
variables present, and with `PATH` equal to the fixed list of well-known
binary directories prepended to the original `PATH` entries with duplicates
removed (keeping first occurrences, so the resulting entry list has no
duplicates and contains exactly the fixed directories and the original
entries). -/
theorem c9_spawn_env_denylist_removed_and_path_enhanced :
    ∀ (p : Platform) (home : String) (env : Env),
      (unsetVars.all (fun k => (envGet (getSpawnEnv p home env) k).isNone) = true)
      ∧ envGet (getSpawnEnv p home env) "PATH" = some (getEnhancedPath p home env)
      ∧ getEnhancedPath p home env
          = String.intercalate (pathSeparator p)
              (dedupFirst (additionalPaths p home (envGet env "APPDATA")
                ++ ((envGet env "PATH").getD "").splitOn (pathSeparator p)))
      ∧ (enhancedPathList p home env).Nodup
      ∧ (∀ x, x ∈ enhancedPathList p home env ↔
            x ∈ additionalPaths p home (envGet env "APPDATA")
            ∨ x ∈ ((envGet env "PATH").getD "").splitOn (pathSeparator p)) := by
  intro p home env
  refine ⟨?_, ?_, rfl, dedupFirst_nodup _, ?_⟩
  · rw [List.all_eq_true]
    intro k hk
    rw [Option.isNone_iff_eq_none]
    refine envGet_spawnEnv_unset p home env k hk ?_ ?_ ?_ <;>
      (intro hEq; subst hEq; revert hk; decide)
  · simp only [getSpawnEnv]
    rw [envGet_envSet_ne _ _ _ _ (by decide : "PATH" ≠ "FORCE_COLOR")]
    rw [envGet_envDelete_ne _ _ _ (by decide : "PATH" ≠ "FORCE_COLOR")]
    rw [envGet_envSet_ne _ _ _ _ (by decide : "PATH" ≠ "TERM")]
    rw [envGet_envDelete_ne _ _ _ (by decide : "PATH" ≠ "TERM")]
    simp only [sanitizeEnvForOAuth]
    split
    · rw [envGet_envDelete_ne _ _ _ (by decide : "PATH" ≠ "BROWSER")]
      simp [envGet_envSet_self]
    · simp [envGet_envSet_self]
  · intro x
    simp [enhancedPathList, dedupFirst_mem, List.mem_append]

/-- C10: starting a Gemini login is destructive to existing credential state:
before spawning the login command, `performGeminiLogin` unconditionally runs
`clearGeminiCredentials` (deleting `oauth_creds.json` and
`google_accounts.json`) and `ensureGeminiOAuthSelected` (rewriting
`settings.json` with `selectedType` forced to `oauth-personal` and any
conflicting `enforcedType` dropped), so a prior Gemini credential never
survives a login call, whatever the prior home-directory state and however the
attempt later ends. -/
theorem c10_gemini_login_clears_prior_credentials :
    ∀ h : GeminiHome,
      (performGeminiLoginPre h).oauthCreds = none
      ∧ (performGeminiLoginPre h).googleAccounts = none
      ∧ ∃ st : GSettings,
          (performGeminiLoginPre h).settings = some st
          ∧ st.secAuthSelectedType = some "oauth-personal"
          ∧ st.selectedAuthType = some "oauth-personal"
          ∧ (st.secAuthEnforcedType = none
             ∨ st.secAuthEnforcedType = some "oauth-personal") := by
  intro h
  refine ⟨rfl, rfl, ⟨_, rfl, ?_, ?_, ?_⟩⟩ <;>
    simp only [performGeminiLoginPre, ensureGeminiOAuthSelected, clearGeminiCredentials] <;>
    (repeat' split) <;> simp_all
